import Mathlib

/-!
Shallow embedding of the ABM repository (inflation-targeting macro model in
`Midterm_2/agents.py`, `Midterm_2/model.py`, and the Schelling segregation
model in `Midterms/Midterm_1/schelling/`).  Machine floats are modelled as
exact rationals; Python `ZeroDivisionError` is modelled by `Option` results.
-/

namespace ABM

/-- State of a `Household` agent (`Midterm_2/agents.py`, class `Household`). -/
structure HState where
  formal : Bool
  savings : ℚ
  income : ℚ
  consumption_rate : ℚ
  expected_inflation : ℚ
  interest_rate_sensitivity : ℚ
  deriving DecidableEq

/-- State of a `Firm` agent (`Midterm_2/agents.py`, class `Firm`). -/
structure FState where
  formal : Bool
  production_capacity : ℚ
  current_production : ℚ
  price_level : ℚ
  markup : ℚ
  central_bank_influence : ℚ
  deriving DecidableEq

/-- State of the `CentralBank` agent (`Midterm_2/agents.py`). -/
structure CBState where
  inflation_target : ℚ
  interest_rate : ℚ
  taylor_inflation_weight : ℚ
  taylor_output_weight : ℚ
  nominal_rate : ℚ
  deriving DecidableEq

/-- Embeds `Household.__init__`: `interest_rate_sensitivity = 0.5 if formal else 0.1`,
`consumption_rate = 0.8`, `expected_inflation = model.current_inflation`. -/
def mkHousehold (formal : Bool) (savings income model_inflation : ℚ) : HState :=
  { formal := formal
    savings := savings
    income := income
    consumption_rate := 0.8
    expected_inflation := model_inflation
    interest_rate_sensitivity := if formal then 0.5 else 0.1 }

/-- Embeds `Firm.__init__`: starts at 80% capacity, `price_level = 1.0`,
`central_bank_influence = 0.8 if formal else 0.3`. -/
def mkFirm (formal : Bool) (production_capacity : ℚ) : FState :=
  { formal := formal
    production_capacity := production_capacity
    current_production := production_capacity * 0.8
    price_level := 1
    markup := 0.15
    central_bank_influence := if formal then 0.8 else 0.3 }

/-- Embeds `CentralBank.__init__`. -/
def mkCentralBank (inflation_target : ℚ) : CBState :=
  { inflation_target := inflation_target
    interest_rate := 0.05
    taylor_inflation_weight := 1.5
    taylor_output_weight := 0.5
    nominal_rate := 0.0642 }

/-- A scheduled agent of the inflation model other than the central bank. -/
inductive AgentPayload where
  | house : HState → AgentPayload
  | firm : FState → AgentPayload
  deriving DecidableEq

/-- An agent together with its mesa `unique_id`. -/
structure ModelAgent where
  unique_id : ℕ
  payload : AgentPayload
  deriving DecidableEq

/-- Model-level state of `InflationModel` (`Midterm_2/model.py`).  The central
bank is the scheduled agent with `unique_id = 0`. -/
structure InflationModel where
  current_inflation : ℚ
  price_index : ℚ
  previous_price_index : ℚ
  aggregate_demand : ℚ
  total_production : ℚ
  price_index_numerator : ℚ
  total_production_capacity : ℚ
  central_bank : CBState
  agents : List ModelAgent
  deriving DecidableEq

/-- The household agents currently scheduled (used by
`get_average_inflation_expectation`). -/
def householdsOf (m : InflationModel) : List HState :=
  m.agents.filterMap (fun a =>
    match a.payload with
    | .house h => some h
    | .firm _ => none)

/-- Embeds `InflationModel.get_average_inflation_expectation`: mean over household
`expected_inflation`, falling back to `current_inflation` when there are no
households. -/
def get_average_inflation_expectation (m : InflationModel) : ℚ :=
  let hs := householdsOf m
  if hs.isEmpty then m.current_inflation
  else ((hs.map (fun h => h.expected_inflation)).sum) / hs.length

/-- Embeds `Household.step`: expectation adjustment, consumption decision with
subsistence floor, saving, contribution to `aggregate_demand`. -/
def householdStep (m : InflationModel) (h : HState) : InflationModel × HState :=
  let target_gap := m.central_bank.inflation_target - h.expected_inflation
  let adjustment_speed : ℚ := if h.formal then 0.5 else 0.2
  let expected := h.expected_inflation + adjustment_speed * target_gap
  let base_consumption := h.income * h.consumption_rate
  let interest_effect := -h.interest_rate_sensitivity * m.central_bank.interest_rate
  let adjusted := base_consumption * (1 + interest_effect)
  let adjusted := max adjusted (0.2 * h.income)
  ({ m with aggregate_demand := m.aggregate_demand + adjusted },
   { h with expected_inflation := expected, savings := h.savings + h.income - adjusted })

/-- Embeds `Firm.step`.  The two divisions (`aggregate_demand /
total_production_capacity` and `current_production / production_capacity`)
raise `ZeroDivisionError` in Python when the divisor is zero, modelled as
`none`. -/
def firmStep (m : InflationModel) (f : FState) : Option (InflationModel × FState) :=
  if m.total_production_capacity = 0 ∨ f.production_capacity = 0 then none
  else
    let demand_pressure := m.aggregate_demand / m.total_production_capacity - 1
    let capacity_change := 0.1 * demand_pressure
    let u := f.current_production / f.production_capacity + capacity_change
    let new_utilization := max 0.5 (min u 1)
    let current_production := new_utilization * f.production_capacity
    let m1 := { m with total_production := m.total_production + current_production }
    let cost_push := max 0 demand_pressure * 0.5
    let expectation_effect := 0.3 * get_average_inflation_expectation m
    let target_adjustment :=
      f.central_bank_influence * (m.central_bank.inflation_target - m.current_inflation)
    let price_adjustment := cost_push + expectation_effect + target_adjustment
    let bounded_adjustment := max (-0.05) (min price_adjustment 0.1)
    let price_level := f.price_level * (1 + bounded_adjustment)
    some ({ m1 with price_index_numerator :=
              m1.price_index_numerator + price_level * current_production },
          { f with current_production := current_production, price_level := price_level })

/-- Embeds `CentralBank.step`: Taylor-type rule, gradual adjustment, clamp to
`[0.01, 0.20]`.  The output-gap division `aggregate_demand /
total_production` is unguarded and faults when `total_production = 0`. -/
def cbStep (m : InflationModel) : Option InflationModel :=
  if m.total_production = 0 then none
  else
    let inflation_gap := m.current_inflation - m.central_bank.inflation_target
    let output_gap := m.aggregate_demand / m.total_production - 1
    let target_rate := m.central_bank.nominal_rate + m.current_inflation +
      m.central_bank.taylor_inflation_weight * inflation_gap +
      m.central_bank.taylor_output_weight * output_gap
    let r := m.central_bank.interest_rate + 0.5 * (target_rate - m.central_bank.interest_rate)
    let r := max 0.01 (min r 0.20)
    some { m with central_bank := { m.central_bank with interest_rate := r } }

/-- Replace the payload of the agent with the given id. -/
def updateAgent (agents : List ModelAgent) (i : ℕ) (p : AgentPayload) : List ModelAgent :=
  agents.map (fun a => if a.unique_id = i then { a with payload := p } else a)

/-- One activation of the scheduler: run the step of the agent with id `i`
(the central bank is id 0). -/
def stepAgent (m : InflationModel) (i : ℕ) : Option InflationModel :=
  if i = 0 then cbStep m
  else
    match m.agents.find? (fun a => a.unique_id == i) with
    | none => some m
    | some a =>
      match a.payload with
      | .house h =>
        let r := householdStep m h
        some { r.1 with agents := updateAgent r.1.agents i (.house r.2) }
      | .firm f =>
        (firmStep m f).map (fun r => { r.1 with agents := updateAgent r.1.agents i (.firm r.2) })

/-- The reset performed at the start of `InflationModel.step`. -/
def resetAggregates (m : InflationModel) : InflationModel :=
  { m with aggregate_demand := 0, total_production := 0, price_index_numerator := 0 }

/-- The finalize phase of `InflationModel.step`: price index with the
`total_production > 0` guard, then the inflation ratio (whose divisor
`previous_price_index` is unguarded). -/
def finalizeTick (m : InflationModel) : Option InflationModel :=
  let previous := m.price_index
  let new_index :=
    if 0 < m.total_production then m.price_index_numerator / m.total_production
    else m.price_index
  if previous = 0 then none
  else some { m with previous_price_index := previous, price_index := new_index,
                     current_inflation := new_index / previous - 1 }

/-- Embeds `InflationModel.step` for a given activation order: reset the aggregate
accumulators, activate every agent in `order`, finalize. -/
def runTick (m : InflationModel) (order : List ℕ) : Option InflationModel :=
  (order.foldl (fun acc i => acc.bind (fun s => stepAgent s i))
    (some (resetAggregates m))).bind finalizeTick

/-- Embeds `InflationModel.__init__` with the stochastic draws made explicit:
`households` lists `(formal, savings, income)` triples and `firms` lists
`(formal, production_capacity)` pairs.  Households are created before the
inflation shock is applied, so their initial `expected_inflation` is the
pre-shock `initial_inflation`; the shock is added only when it is
strictly positive (`if inflation_shock_size > 0`). -/
def mkInflationModel (households : List (Bool × ℚ × ℚ)) (firms : List (Bool × ℚ))
    (inflation_target initial_inflation inflation_shock_size : ℚ) : InflationModel :=
  let nh := households.length
  let hAgents := households.enum.map (fun x =>
    ModelAgent.mk (x.1 + 1) (.house (mkHousehold x.2.1 x.2.2.1 x.2.2.2 initial_inflation)))
  let fAgents := firms.enum.map (fun x =>
    ModelAgent.mk (nh + 1 + x.1) (.firm (mkFirm x.2.1 x.2.2)))
  { current_inflation :=
      if 0 < inflation_shock_size then initial_inflation + inflation_shock_size
      else initial_inflation
    price_index := 1
    previous_price_index := 1
    aggregate_demand := 0
    total_production := 0
    price_index_numerator := 0
    total_production_capacity := (firms.map (fun x => x.2)).sum
    central_bank := mkCentralBank inflation_target
    agents := hAgents ++ fAgents }

/-- The `"Inflation"` model reporter of the data collector. -/
def inflationReport (m : InflationModel) : ℚ := m.current_inflation

/-- State of a `SchellingAgent` (`Midterms/Midterm_1/schelling/agents.py`).
`income_class` is the normalized lognormal draw, aliased to `self.type` in
the source; positions live on the toroidal grid. -/
structure SchellingAgent where
  unique_id : ℕ
  income_class : ℚ
  threshold : ℚ
  past_moves : ℕ
  adaptive : Bool
  move_cost : ℚ
  pos : ℕ × ℕ
  deriving DecidableEq

/-- State of `SchellingModel` (`Midterms/Midterm_1/schelling/model.py`). -/
structure SchellingModel where
  width : ℕ
  height : ℕ
  radius : ℕ
  agents : List SchellingAgent
  happy : ℕ
  deriving DecidableEq

/-- Toroidal distance along one axis of the wrapped grid (coordinates are
assumed `< w`). -/
def torusAxisDist (w a b : ℕ) : ℕ :=
  min ((a + w - b) % w) ((b + w - a) % w)

/-- Membership of `q` in the Moore neighborhood of `p` with the model's
vision radius, wraparound at the edges, center cell excluded
(`get_neighbors(p, moore=True, radius=..., include_center=False)`). -/
def isMooreNeighbor (m : SchellingModel) (p q : ℕ × ℕ) : Bool :=
  (p != q) && decide (torusAxisDist m.width p.1 q.1 ≤ m.radius)
    && decide (torusAxisDist m.height p.2 q.2 ≤ m.radius)

/-- Agents occupying the neighborhood of the cell `p`. -/
def neighborsAt (m : SchellingModel) (p : ℕ × ℕ) : List SchellingAgent :=
  m.agents.filter (fun b => isMooreNeighbor m p b.pos)

/-- The acting agent's own neighborhood (the agent itself is excluded because
its own cell is the excluded center). -/
def neighborsOf (m : SchellingModel) (a : SchellingAgent) : List SchellingAgent :=
  neighborsAt m a.pos

/-- Embeds `abs(n.type - self.type) <= 0.1`. -/
def isSimilar (a b : SchellingAgent) : Bool :=
  decide (|b.income_class - a.income_class| ≤ 0.1)

/-- Embeds `share_alike = similar / len(neighbors)`. -/
def shareAlike (a : SchellingAgent) (neighbors : List SchellingAgent) : ℚ :=
  ((neighbors.filter (isSimilar a)).length : ℚ) / neighbors.length

/-- Embeds `SchellingAgent.is_satisfied`: `False` on an empty neighborhood,
otherwise `share_alike >= self.threshold`. -/
def is_satisfied (a : SchellingAgent) (neighbors : List SchellingAgent) : Bool :=
  if neighbors.isEmpty then false
  else decide (a.threshold ≤ shareAlike a neighbors)

/-- Embeds `SchellingAgent.evaluate_location`; `none` models the `-inf` returned on
an empty candidate neighborhood. -/
def evaluate_location (m : SchellingModel) (a : SchellingAgent) (p : ℕ × ℕ) : Option ℚ :=
  let neighbors := neighborsAt m p
  if neighbors.isEmpty then none
  else some (shareAlike a neighbors - a.move_cost * (1 / (a.income_class + 0.01)))

/-- The candidate-scanning loop of `SchellingAgent.move`: strict improvement
over a `-inf` start, first encountered wins ties. -/
def bestCandidate (m : SchellingModel) (a : SchellingAgent)
    (candidates : List (ℕ × ℕ)) : Option (ℕ × ℕ) :=
  (candidates.foldl (fun best p =>
      match evaluate_location m a p with
      | none => best
      | some v =>
        match best with
        | none => some (p, v)
        | some qw => if qw.2 < v then some (p, v) else some qw) none).map (fun x => x.1)

/-- Embeds `SchellingAgent.move` with the random sample of empty cells supplied as
`candidates`.  A satisfied agent increments `happy` and stays; an unsatisfied
agent relocates to the best candidate (if any), counts the move, and runs the
adaptive threshold-decrease branch. -/
def moveAgent (m : SchellingModel) (a : SchellingAgent)
    (candidates : List (ℕ × ℕ)) : SchellingModel :=
  let neighbors := neighborsOf m a
  if is_satisfied a neighbors then { m with happy := m.happy + 1 }
  else
    match bestCandidate m a candidates with
    | none => m
    | some p =>
      let moved := { a with pos := p, past_moves := a.past_moves + 1 }
      let moved :=
        if moved.adaptive && decide (10 ≤ moved.past_moves) then
          { moved with threshold := min 1 (moved.threshold - 0.01) }
        else moved
      { m with agents := m.agents.map (fun b =>
          if b.unique_id = a.unique_id then moved else b) }

/-- One activation of the shuffled scheduler: `move` of the agent with id
`i`. -/
def stepAgentS (m : SchellingModel) (i : ℕ) (candidates : List (ℕ × ℕ)) : SchellingModel :=
  match m.agents.find? (fun b => b.unique_id == i) with
  | none => m
  | some a => moveAgent m a candidates

/-- Embeds `SchellingModel.step` for a given activation order, with the per-agent
random samples of empty cells supplied by `samples`. -/
def schellingStep (m : SchellingModel) (order : List ℕ)
    (samples : ℕ → List (ℕ × ℕ)) : SchellingModel :=
  order.foldl (fun s i => stepAgentS s i (samples i)) { m with happy := 0 }

/-- Embeds `self.running = self.happy < len(self.agents)` set at the end of a step. -/
def runningFlag (m : SchellingModel) : Bool :=
  decide (m.happy < m.agents.length)

/-- The `"share_happy"` model reporter, guarded against an empty
population. -/
def shareHappyReport (m : SchellingModel) : ℚ :=
  if 0 < m.agents.length then ((m.happy : ℚ) / m.agents.length) * 100 else 0

/-- Embeds `SchellingAgent.__init__` with the two global-stream RNG draws made
explicit: `skw_draw` is the raw `np.random.lognormal` value (normalized to
`income_class`), `threshold_draw` the `random.uniform(0, 1)` value.  Both
come from the process-global streams, not from the model's seeded RNG.
`adaptive` is always `False`. -/
def mkSchellingAgent (skw_draw threshold_draw : ℚ) (uid : ℕ) (p : ℕ × ℕ) : SchellingAgent :=
  { unique_id := uid
    income_class := skw_draw / (1 + skw_draw)
    threshold := threshold_draw
    past_moves := 0
    adaptive := false
    move_cost := 1
    pos := p }

/-- The cells of the grid in iteration order. -/
def gridCells (w h : ℕ) : List (ℕ × ℕ) :=
  (List.range w).flatMap (fun x => (List.range h).map (fun y => (x, y)))

/-- Embeds `SchellingModel.__init__`.  `seedDraws` is the stream of
`self.random.random()` values (this RNG is seeded by the constructor's
`seed` argument, so two models built with the same seed consume identical
`seedDraws`); `globalDraws` is the process-global `np.random`/`random`
stream from which every `SchellingAgent.__init__` takes its two attribute
draws — that stream is shared across all constructions in the process and
is NOT reset by the seed.  Returns the model and the rest of the global
stream, which a second construction in the same process would consume. -/
def buildSchelling (w h : ℕ) (density : ℚ) (radius : ℕ)
    (seedDraws globalDraws : List ℚ) : SchellingModel × List ℚ :=
  let st := (gridCells w h).foldl (fun st p =>
      match st.1 with
      | [] => st
      | d :: sdRest =>
        if d < density then
          match st.2.1 with
          | s :: t :: gdRest =>
            (sdRest, gdRest, st.2.2.1 + 1, st.2.2.2 ++ [mkSchellingAgent s t st.2.2.1 p])
          | _ => (sdRest, st.2.1, st.2.2.1, st.2.2.2)
        else (sdRest, st.2.1, st.2.2.1, st.2.2.2))
    (seedDraws, globalDraws, 1, ([] : List SchellingAgent))
  ({ width := w, height := h, radius := radius, agents := st.2.2.2, happy := 0 }, st.2.1)

/-- Iterated `SchellingModel.step` over a script of (activation order,
empty-cell samples) pairs. -/
def runSchelling (m : SchellingModel)
    (script : List (List ℕ × (ℕ → List (ℕ × ℕ)))) : SchellingModel :=
  script.foldl (fun s x => schellingStep s x.1 x.2) m

/-- Current production of the firm with id `i`, as recorded in the agent
set. -/
def firmProductionOf (m : InflationModel) (i : ℕ) : Option ℚ :=
  (m.agents.find? (fun a => a.unique_id == i)).bind (fun a =>
    match a.payload with
    | .firm f => some f.current_production
    | .house _ => none)

/-- Concrete macro model: one formal household (savings 100, income 100) and
one formal firm (capacity 100), default targets, no shock. -/
def mHF : InflationModel :=
  mkInflationModel [(true, 100, 100)] [(true, 100)] 0.03 0.08 0

/-- Concrete macro model with no households and one formal firm. -/
def mF : InflationModel := mkInflationModel [] [(true, 100)] 0.03 0.08 0

/-- Concrete macro model with no scheduled agents at all. -/
def mE : InflationModel := mkInflationModel [] [] 0.03 0.08 0

/-- Concrete Schelling model with no agents. -/
def sE : SchellingModel :=
  { width := 10, height := 10, radius := 1, agents := [], happy := 0 }

/-- Macro state with negative accumulated production (reachable because firm
capacities are unvalidated normal draws that can be negative). -/
def mNegProd : InflationModel :=
  { current_inflation := 0.08
    price_index := 1
    previous_price_index := 1
    aggregate_demand := 0
    total_production := -1
    price_index_numerator := 5
    total_production_capacity := 100
    central_bank := mkCentralBank 0.03
    agents := [] }

/-- Concrete Schelling state: one zero-threshold agent alone on a 10×10
grid with vision radius 1 (its neighborhood is empty). -/
def c8iso : SchellingModel :=
  { width := 10, height := 10, radius := 1, happy := 0,
    agents := [{ unique_id := 1, income_class := 1/2, threshold := 0, past_moves := 0,
                 adaptive := false, move_cost := 1, pos := (0, 0) }] }

/-- A 10-cell sample of empty cells for the isolated agent (all at toroidal
distance ≥ 2 from every agent, so every candidate evaluates to `-inf`). -/
def c8isoSample : List (ℕ × ℕ) :=
  [(2, 2), (3, 3), (4, 4), (5, 5), (6, 6), (7, 7), (8, 8), (2, 7), (7, 2), (5, 2)]

/-- Concrete Schelling state: two zero-threshold agents of the same type on
a 2×2 torus (every cell is adjacent to every other). -/
def c8nbr : SchellingModel :=
  { width := 2, height := 2, radius := 1, happy := 0,
    agents := [{ unique_id := 1, income_class := 1/2, threshold := 0, past_moves := 0,
                 adaptive := false, move_cost := 1, pos := (0, 0) },
               { unique_id := 2, income_class := 1/2, threshold := 0, past_moves := 0,
                 adaptive := false, move_cost := 1, pos := (0, 1) }] }

/-- C4: every `Household.step` consumes
`max(income*0.8*(1 - sensitivity*interest_rate), 0.2*income)` where the
sensitivity stored at construction is `0.5` if formal else `0.1`; the
consumption is added to `aggregate_demand` and `income - consumption` is
saved, so consumption never drops below the `0.2*income` subsistence floor.
A formal household with income 100 and savings 100 stepping under interest
rate `0.05` consumes exactly 78 and ends with savings 122. -/
theorem c4_household_consumption :
    (∀ (m : InflationModel) (h : HState), h.consumption_rate = 0.8 →
      (householdStep m h).1.aggregate_demand =
        m.aggregate_demand +
          max (h.income * 0.8 * (1 - h.interest_rate_sensitivity * m.central_bank.interest_rate))
            (0.2 * h.income) ∧
      (householdStep m h).2.savings =
        h.savings + h.income -
          max (h.income * 0.8 * (1 - h.interest_rate_sensitivity * m.central_bank.interest_rate))
            (0.2 * h.income) ∧
      0.2 * h.income ≤
        max (h.income * 0.8 * (1 - h.interest_rate_sensitivity * m.central_bank.interest_rate))
          (0.2 * h.income)) ∧
    (∀ (formal : Bool) (s i infl : ℚ),
      (mkHousehold formal s i infl).interest_rate_sensitivity =
        (if formal then 0.5 else 0.1) ∧
      (mkHousehold formal s i infl).consumption_rate = 0.8) ∧
    ((householdStep mE (mkHousehold true 100 100 0.08)).1.aggregate_demand = 78 ∧
      (householdStep mE (mkHousehold true 100 100 0.08)).2.savings = 122) := by
  refine ⟨fun m h hcr => ?_, fun formal s i infl => ⟨rfl, rfl⟩,
    by with_unfolding_all decide, by with_unfolding_all decide⟩
  have hA : h.income * h.consumption_rate *
      (1 + -h.interest_rate_sensitivity * m.central_bank.interest_rate) =
      h.income * 0.8 * (1 - h.interest_rate_sensitivity * m.central_bank.interest_rate) := by
    rw [hcr]; ring
  refine ⟨?_, ?_, le_max_right _ _⟩ <;> simp only [householdStep, hA]

/-- Witness for C4's universally quantified part at a concrete household. -/
theorem c4_household_consumption_wit :
    (householdStep mE (mkHousehold true 100 100 0.08)).1.aggregate_demand =
      mE.aggregate_demand +
        max ((mkHousehold true 100 100 0.08).income * 0.8 *
          (1 - (mkHousehold true 100 100 0.08).interest_rate_sensitivity *
            mE.central_bank.interest_rate))
          (0.2 * (mkHousehold true 100 100 0.08).income) ∧
    (householdStep mE (mkHousehold true 100 100 0.08)).2.savings =
      (mkHousehold true 100 100 0.08).savings + (mkHousehold true 100 100 0.08).income -
        max ((mkHousehold true 100 100 0.08).income * 0.8 *
          (1 - (mkHousehold true 100 100 0.08).interest_rate_sensitivity *
            mE.central_bank.interest_rate))
          (0.2 * (mkHousehold true 100 100 0.08).income) ∧
    0.2 * (mkHousehold true 100 100 0.08).income ≤
      max ((mkHousehold true 100 100 0.08).income * 0.8 *
        (1 - (mkHousehold true 100 100 0.08).interest_rate_sensitivity *
          mE.central_bank.interest_rate))
        (0.2 * (mkHousehold true 100 100 0.08).income) :=
  c4_household_consumption.1 mE (mkHousehold true 100 100 0.08) rfl

/-- C9 counterexample: with `inflation_shock_size = -1/100` the shock is NOT
applied (the source guards it with `if inflation_shock_size > 0:`), so the
tick-0 snapshot records `initial_inflation`, not
`initial_inflation + inflation_shock_size`. -/
theorem c9_negative_shock_cex :
    inflationReport (mkInflationModel [] [] 0.03 0.08 (-(1/100))) = 0.08 ∧
    (0.08 : ℚ) ≠ 0.08 + (-(1 / 100)) := by
  refine ⟨by with_unfolding_all decide, by norm_num⟩

/-- C9 (amended): the tick-0 snapshot records
`initial_inflation + inflation_shock_size` when the shock size is strictly
positive, and plain `initial_inflation` otherwise (the additive bump is only
applied under `if inflation_shock_size > 0`). -/
theorem c9_shock_applied_when_positive :
    ∀ (hs : List (Bool × ℚ × ℚ)) (fs : List (Bool × ℚ)) (t init shock : ℚ),
    (0 < shock →
      inflationReport (mkInflationModel hs fs t init shock) = init + shock) ∧
    (¬ 0 < shock →
      inflationReport (mkInflationModel hs fs t init shock) = init) := by
  intro hs fs t init shock
  constructor
  · intro h
    simp [inflationReport, mkInflationModel, if_pos h]
  · intro h
    simp [inflationReport, mkInflationModel, if_neg h]

/-- Witness for C9's amended theorem at a concrete positive shock. -/
theorem c9_shock_applied_when_positive_wit :
    inflationReport (mkInflationModel [] [] 0.03 0.08 (1/2)) = 0.08 + 1/2 :=
  (c9_shock_applied_when_positive [] [] 0.03 0.08 (1/2)).1 (by norm_num)

/-- C7 counterexample: the finalize guard is `total_production > 0`, not
`total_production ≠ 0`.  In a state with `total_production = -1` (reachable
because capacities are unvalidated normal draws) the claim's "otherwise"
branch predicts `price_index = price_index_numerator / total_production =
-5`, but the code retains the previous value 1. -/
theorem c7_finalize_negative_production_cex :
    (finalizeTick mNegProd).map (fun x => x.price_index) = some 1 ∧
    mNegProd.total_production ≠ 0 ∧
    mNegProd.price_index_numerator / mNegProd.total_production ≠ 1 := by
  refine ⟨by with_unfolding_all decide, by with_unfolding_all decide,
    by with_unfolding_all decide⟩

/-- C7 (amended): at finalize, when `total_production > 0` the price index
becomes `price_index_numerator / total_production`, otherwise (including
`total_production = 0`) it retains its previous value; `current_inflation`
becomes `price_index / previous_price_index - 1`, which is 0 in the retained
case provided the retained `price_index` is nonzero (a zero `price_index`
would make the inflation division fault). -/
theorem c7_finalize_guard :
    ∀ m : InflationModel, m.price_index ≠ 0 →
    ((finalizeTick m).map (fun x => (x.price_index, x.current_inflation)) =
      some ((if 0 < m.total_production then
              m.price_index_numerator / m.total_production else m.price_index),
            (if 0 < m.total_production then
              m.price_index_numerator / m.total_production else m.price_index) /
              m.price_index - 1)) ∧
    (m.total_production = 0 →
      (finalizeTick m).map (fun x => x.current_inflation) = some 0) := by
  intro m hpi
  constructor
  · simp [finalizeTick, hpi]
  · intro htp
    have : ¬ (0 : ℚ) < m.total_production := by rw [htp]; exact lt_irrefl 0
    simp [finalizeTick, hpi, htp, this, div_self hpi]

/-- C3 counterexample: a tick does NOT always complete.  On the freshly
constructed model `mHF`, the activation order that runs the central bank
first divides `aggregate_demand / total_production` with
`total_production = 0` (it was just reset), raising `ZeroDivisionError` and
aborting the tick. -/
theorem c3_central_bank_division_fault_cex :
    runTick mHF [0, 1, 2] = none := by
  with_unfolding_all decide

/-- C3 (amended): the two guarded points behave as specified (price index
retained when `total_production = 0` provided the retained index is nonzero;
happiness share defaults to 0 on an empty population), but the central
bank's output-gap division is a further, unguarded zero-divisor point: its
step faults exactly when `total_production = 0` at its activation (e.g. when
the bank activates before any firm in a tick).  Likewise the firm's
demand-pressure and utilization divisions fault exactly when their divisors
`total_production_capacity` resp. `production_capacity` are zero. -/
theorem c3_division_guards :
    (∀ m : InflationModel, cbStep m = none ↔ m.total_production = 0) ∧
    (∀ (m : InflationModel) (f : FState), firmStep m f = none ↔
      (m.total_production_capacity = 0 ∨ f.production_capacity = 0)) ∧
    (∀ m : InflationModel, m.price_index ≠ 0 → finalizeTick m ≠ none) ∧
    (∀ s : SchellingModel, s.agents.length = 0 → shareHappyReport s = 0) := by
  refine ⟨fun m => ?_, fun m f => ?_, fun m hpi => ?_, fun s hs => ?_⟩
  · unfold cbStep
    split <;> simp_all
  · unfold firmStep
    split <;> simp_all
  · unfold finalizeTick
    simp [hpi]
  · unfold shareHappyReport
    simp [hs]

/-- Witness for C3's amended theorem at concrete inputs. -/
theorem c3_division_guards_wit :
    (cbStep mE = none ↔ mE.total_production = 0) ∧
    finalizeTick mE ≠ none ∧ shareHappyReport sE = 0 :=
  ⟨c3_division_guards.1 mE,
   c3_division_guards.2.2.1 mE (by with_unfolding_all decide),
   c3_division_guards.2.2.2 sE (by decide)⟩

/-- C6: after any successful firm step, the firm's production lies between
50% and 100% of its (positive) capacity, whatever the demand pressure. -/
theorem c6_utilization_bounds :
    ∀ (m : InflationModel) (f : FState) (p : ℚ),
    (firmStep m f).map (fun x => x.2.current_production) = some p →
    0 < f.production_capacity →
    0.5 * f.production_capacity ≤ p ∧ p ≤ f.production_capacity := by
  intro m f p hstep hcap
  unfold firmStep at hstep
  split at hstep
  · simp at hstep
  · simp only [Option.map_some', Option.some.injEq] at hstep
    subst hstep
    constructor
    · exact mul_le_mul_of_nonneg_right (le_max_left _ _) (le_of_lt hcap)
    · calc max 0.5 (min (f.current_production / f.production_capacity +
            0.1 * (m.aggregate_demand / m.total_production_capacity - 1)) 1) *
            f.production_capacity
          ≤ 1 * f.production_capacity := by
            refine mul_le_mul_of_nonneg_right ?_ (le_of_lt hcap)
            exact max_le (by norm_num) (min_le_right _ _)
      _ = f.production_capacity := one_mul _

/-- Witness for C6 at the concrete firm of `mHF` (production 70 after a
demand pressure of −1). -/
theorem c6_utilization_bounds_wit :
    0.5 * (mkFirm true 100).production_capacity ≤ 70 ∧
    (70 : ℚ) ≤ (mkFirm true 100).production_capacity :=
  c6_utilization_bounds mHF (mkFirm true 100) 70
    (by with_unfolding_all decide) (by with_unfolding_all decide)

/-- Bounds produced by the clamp at the end of `CentralBank.step`. -/
lemma cbStep_rate_bounds {m m' : InflationModel} (h : cbStep m = some m') :
    0.01 ≤ m'.central_bank.interest_rate ∧ m'.central_bank.interest_rate ≤ 0.20 := by
  unfold cbStep at h
  split at h
  · simp at h
  · simp only [Option.some.injEq] at h
    subst h
    exact ⟨le_max_left _ _, max_le (by norm_num) (min_le_right _ _)⟩

/-- A firm step never touches the central bank's state. -/
lemma firmStep_bank {m : InflationModel} {f : FState} {r : InflationModel × FState}
    (h : firmStep m f = some r) : r.1.central_bank = m.central_bank := by
  unfold firmStep at h
  split at h
  · simp at h
  · simp only [Option.some.injEq] at h
    subst h
    rfl

/-- Any successful activation either leaves the central bank untouched or
(when it is the bank's own activation) leaves its rate clamped into
`[0.01, 0.20]`. -/
lemma stepAgent_bank {m m' : InflationModel} {i : ℕ} (h : stepAgent m i = some m') :
    (0.01 ≤ m'.central_bank.interest_rate ∧ m'.central_bank.interest_rate ≤ 0.20) ∨
    m'.central_bank = m.central_bank := by
  unfold stepAgent at h
  split at h
  · exact Or.inl (cbStep_rate_bounds h)
  · split at h
    · simp only [Option.some.injEq] at h
      subst h
      exact Or.inr rfl
    · split at h
      · simp only [Option.some.injEq] at h
        subst h
        exact Or.inr rfl
      · obtain ⟨r, hr, hm⟩ := Option.map_eq_some'.mp h
        subst hm
        exact Or.inr (firmStep_bank hr)

/-- A failed activation poisons the rest of the scheduler fold. -/
lemma schedule_fold_none (order : List ℕ) :
    order.foldl (fun acc i => acc.bind (fun s => stepAgent s i)) none = none := by
  induction order with
  | nil => rfl
  | cons i rest ih => simpa using ih

/-- The scheduler fold preserves an in-bounds policy rate. -/
lemma rate_bounds_preserved : ∀ (order : List ℕ) (m m' : InflationModel),
    order.foldl (fun acc i => acc.bind (fun s => stepAgent s i)) (some m) = some m' →
    0.01 ≤ m.central_bank.interest_rate ∧ m.central_bank.interest_rate ≤ 0.20 →
    0.01 ≤ m'.central_bank.interest_rate ∧ m'.central_bank.interest_rate ≤ 0.20 := by
  intro order
  induction order with
  | nil =>
    intro m m' h hb
    simp only [List.foldl_nil, Option.some.injEq] at h
    exact h ▸ hb
  | cons i rest ih =>
    intro m m' h hb
    rw [List.foldl_cons] at h
    simp only [Option.some_bind] at h
    cases hs : stepAgent m i with
    | none =>
      rw [hs, schedule_fold_none] at h
      exact absurd h (by simp)
    | some m1 =>
      rw [hs] at h
      rcases stepAgent_bank hs with hb1 | hb1
      · exact ih m1 m' h hb1
      · exact ih m1 m' h (hb1 ▸ hb)

/-- After an order containing the central bank's activation, the final rate
of a successful scheduler fold is in bounds. -/
lemma rate_bounds_after_cb : ∀ (order : List ℕ) (m m' : InflationModel),
    0 ∈ order →
    order.foldl (fun acc i => acc.bind (fun s => stepAgent s i)) (some m) = some m' →
    0.01 ≤ m'.central_bank.interest_rate ∧ m'.central_bank.interest_rate ≤ 0.20 := by
  intro order
  induction order with
  | nil => intro m m' hmem; exact absurd hmem (by simp)
  | cons i rest ih =>
    intro m m' hmem h
    rw [List.foldl_cons] at h
    simp only [Option.some_bind] at h
    cases hs : stepAgent m i with
    | none =>
      rw [hs, schedule_fold_none] at h
      exact absurd h (by simp)
    | some m1 =>
      rw [hs] at h
      by_cases hi : i = 0
      · subst hi
        have hcb : cbStep m = some m1 := by
          simpa [stepAgent] using hs
        exact rate_bounds_preserved rest m1 m' h (cbStep_rate_bounds hcb)
      · rcases List.mem_cons.mp hmem with h0 | h0
        · exact absurd h0.symm hi
        · exact ih m1 m' h0 h

/-- The finalize phase never touches the central bank. -/
lemma finalizeTick_bank {m m' : InflationModel} (h : finalizeTick m = some m') :
    m'.central_bank = m.central_bank := by
  unfold finalizeTick at h
  by_cases hpi : m.price_index = 0
  · rw [if_pos hpi] at h
    exact absurd h (by simp)
  · rw [if_neg hpi] at h
    simp only [Option.some.injEq] at h
    subst h
    rfl

/-- C5: at the end of every completed tick whose activation order includes
the central bank, the policy rate lies in `[0.01, 0.20]`, no matter how
large or small the Taylor-rule target is. -/
theorem c5_interest_rate_bounds :
    ∀ (m : InflationModel) (order : List ℕ) (r : ℚ), 0 ∈ order →
    (runTick m order).map (fun x => x.central_bank.interest_rate) = some r →
    0.01 ≤ r ∧ r ≤ 0.20 := by
  intro m order r hmem h
  obtain ⟨m', hm', hr⟩ := Option.map_eq_some'.mp h
  unfold runTick at hm'
  obtain ⟨mf, hf, hfin⟩ := Option.bind_eq_some.mp hm'
  have hb := rate_bounds_after_cb order (resetAggregates m) mf hmem hf
  rw [← hr, finalizeTick_bank hfin]
  exact hb

/-- Witness for C5 on a complete concrete tick of `mF` (rate clamped to the
lower bound 0.01). -/
theorem c5_interest_rate_bounds_wit :
    (0.01 : ℚ) ≤ 1 / 100 ∧ (1 / 100 : ℚ) ≤ 0.20 :=
  c5_interest_rate_bounds mF [1, 0] (1 / 100) (by decide)
    (by with_unfolding_all decide)

/-- C2 counterexample: the firm does NOT read the previous tick's final
`aggregate_demand`.  Starting from the fresh model `mHF`, tick 1 with order
[household, firm, bank] ends with `aggregate_demand = 78` and firm
production 77.8.  The claim then predicts, for tick 2, demand pressure
`78/100 - 1` and hence production
`(max 0.5 (min (77.8/100 + 0.1*(78/100 - 1)) 1)) * 100 = 75.6`, independent
of the order; but running tick 2 with the firm first gives production 67.8
(the firm sees the freshly reset `aggregate_demand = 0`). -/
theorem c2_demand_pressure_not_lagged_cex :
    (runTick mHF [1, 2, 0]).map (fun m => m.aggregate_demand) = some 78 ∧
    (runTick mHF [1, 2, 0]).bind (fun m => firmProductionOf m 2) = some (389 / 5) ∧
    ((runTick mHF [1, 2, 0]).bind (fun m => runTick m [2, 1, 0])).bind
      (fun m => firmProductionOf m 2) = some (339 / 5) ∧
    max 0.5 (min ((389 / 5 : ℚ) / 100 + 0.1 * (78 / 100 - 1)) 1) * 100 = 378 / 5 ∧
    (339 / 5 : ℚ) ≠ 378 / 5 := by
  refine ⟨by with_unfolding_all decide, by with_unfolding_all decide,
    by with_unfolding_all decide, by with_unfolding_all decide,
    by with_unfolding_all decide⟩

/-- C2 (amended): the firm's demand pressure is computed from the model's
`aggregate_demand` at the moment the firm activates in the CURRENT tick:
the tick reset zeroes `aggregate_demand`, and the value the firm divides by
`total_production_capacity` is whatever the households activated earlier in
the same tick have accumulated — so it depends on the activation order, with
no one-tick lag. -/
theorem c2_demand_pressure_current_tick :
    ∀ (m : InflationModel) (f : FState),
    m.total_production_capacity ≠ 0 → f.production_capacity ≠ 0 →
    (firmStep m f).map (fun x => x.2.current_production) =
      some (max 0.5 (min (f.current_production / f.production_capacity +
        0.1 * (m.aggregate_demand / m.total_production_capacity - 1)) 1) *
        f.production_capacity) ∧
    (resetAggregates m).aggregate_demand = 0 := by
  intro m f h1 h2
  constructor
  · unfold firmStep
    rw [if_neg (by simp [h1, h2])]
    rfl
  · rfl

/-- Witness for C2's amended theorem at the concrete firm of `mHF`. -/
theorem c2_demand_pressure_current_tick_wit :
    (firmStep mHF (mkFirm true 100)).map (fun x => x.2.current_production) =
      some (max 0.5 (min ((mkFirm true 100).current_production /
          (mkFirm true 100).production_capacity +
        0.1 * (mHF.aggregate_demand / mHF.total_production_capacity - 1)) 1) *
        (mkFirm true 100).production_capacity) ∧
    (resetAggregates mHF).aggregate_demand = 0 :=
  c2_demand_pressure_current_tick mHF (mkFirm true 100)
    (by with_unfolding_all decide) (by with_unfolding_all decide)

/-- An alike-share is a quotient of counts, hence nonnegative. -/
lemma shareAlike_nonneg (a : SchellingAgent) (nbrs : List SchellingAgent) :
    0 ≤ shareAlike a nbrs :=
  div_nonneg (Nat.cast_nonneg _) (Nat.cast_nonneg _)

/-- A zero-threshold agent with at least one neighbor is satisfied. -/
lemma is_satisfied_zero {a : SchellingAgent} {nbrs : List SchellingAgent}
    (hthr : a.threshold = 0) (hne : nbrs ≠ []) : is_satisfied a nbrs = true := by
  unfold is_satisfied
  rw [if_neg (by simpa [List.isEmpty_iff] using hne)]
  rw [hthr]
  exact decide_eq_true (shareAlike_nonneg a nbrs)

/-- One pass of the scheduler over a state whose agents are all satisfied
(zero threshold, nonempty neighborhood) only counts them happy. -/
lemma schelling_fold_happy : ∀ (order : List ℕ) (m : SchellingModel)
    (samples : ℕ → List (ℕ × ℕ)),
    (∀ a ∈ m.agents, a.threshold = 0 ∧ neighborsOf m a ≠ []) →
    (∀ i ∈ order, i ∈ m.agents.map (fun a => a.unique_id)) →
    order.foldl (fun s i => stepAgentS s i (samples i)) m =
      { m with happy := m.happy + order.length } := by
  intro order
  induction order with
  | nil =>
    intro m samples h1 h2
    rfl
  | cons i rest ih =>
    intro m samples h1 h2
    rw [List.foldl_cons]
    obtain ⟨a, ha_mem, ha_id⟩ : ∃ a ∈ m.agents, a.unique_id = i := by
      simpa using h2 i (by simp)
    obtain ⟨b, hb⟩ : ∃ b, m.agents.find? (fun b => b.unique_id == i) = some b := by
      rw [← Option.isSome_iff_exists, List.find?_isSome]
      exact ⟨a, ha_mem, by simpa using ha_id⟩
    have hb_mem := List.mem_of_find?_eq_some hb
    have hstep : stepAgentS m i (samples i) = { m with happy := m.happy + 1 } := by
      unfold stepAgentS
      rw [hb]
      show moveAgent m b (samples i) = _
      unfold moveAgent
      rw [if_pos (is_satisfied_zero (h1 b hb_mem).1 (h1 b hb_mem).2)]
    rw [hstep, ih { m with happy := m.happy + 1 } samples (fun a ha => h1 a ha)
      (fun j hj => h2 j (List.mem_cons_of_mem _ hj))]
    congr 1
    simp [List.length_cons]
    omega

/-- C8 counterexample: a single zero-threshold agent with an empty
neighborhood is NOT satisfied (`is_satisfied` returns `False` on an empty
neighbor list before the threshold comparison), so one step leaves
`happy = 0 ≠ 1` and the model does not converge in one tick. -/
theorem c8_isolated_agent_cex :
    (∀ a ∈ c8iso.agents, a.threshold = 0) ∧
    (schellingStep c8iso [1] (fun _j => c8isoSample)).happy = 0 ∧
    c8iso.agents.length = 1 := by
  refine ⟨by with_unfolding_all decide, by with_unfolding_all decide, by decide⟩

/-- C8 (amended): if every agent's threshold is 0 AND every agent has at
least one neighbor, one step makes `happy` equal to the agent count and
clears the running flag — the zero-threshold satisfaction condition holds
for every agent with a nonempty neighborhood (but not for isolated
agents). -/
theorem c8_zero_threshold_convergence :
    ∀ (m : SchellingModel) (order : List ℕ) (samples : ℕ → List (ℕ × ℕ)),
    (∀ a ∈ m.agents, a.threshold = 0) →
    (∀ a ∈ m.agents, neighborsOf m a ≠ []) →
    order.Perm (m.agents.map (fun a => a.unique_id)) →
    (schellingStep m order samples).happy = m.agents.length ∧
    runningFlag (schellingStep m order samples) = false := by
  intro m order samples hthr hnbr hperm
  have hfold := schelling_fold_happy order { m with happy := 0 } samples
    (fun a ha => ⟨hthr a ha, hnbr a ha⟩)
    (fun i hi => hperm.mem_iff.mp hi)
  unfold schellingStep
  rw [hfold]
  have hlen : order.length = m.agents.length := by
    rw [hperm.length_eq, List.length_map]
  constructor
  · simpa using hlen
  · unfold runningFlag
    simp [hlen]

/-- Witness for C8's amended theorem on a 2×2 grid fully adjacent under
wraparound, with two zero-threshold agents. -/
theorem c8_zero_threshold_convergence_wit :
    (schellingStep c8nbr [2, 1] (fun _j => [])).happy = c8nbr.agents.length ∧
    runningFlag (schellingStep c8nbr [2, 1] (fun _j => [])) = false :=
  c8_zero_threshold_convergence c8nbr [2, 1] (fun _j => [])
    (by with_unfolding_all decide) (by with_unfolding_all decide) (by decide)

/-- Projection of an agent list to the (id, threshold, adaptive) data that
claim C10 tracks. -/
def agentCore (l : List SchellingAgent) : List (ℕ × ℚ × Bool) :=
  l.map (fun a => (a.unique_id, a.threshold, a.adaptive))

/-- With all agents non-adaptive and distinct ids, `move` never changes any
agent's id, threshold or adaptive flag. -/
lemma moveAgent_core {m : SchellingModel} {a : SchellingAgent} {c : List (ℕ × ℕ)}
    (hall : ∀ b ∈ m.agents, b.adaptive = false)
    (hnodup : (m.agents.map (fun b => b.unique_id)).Nodup)
    (hmem : a ∈ m.agents) :
    agentCore (moveAgent m a c).agents = agentCore m.agents := by
  unfold moveAgent
  by_cases hsat : is_satisfied a (neighborsOf m a) = true
  · rw [if_pos hsat]
  · rw [if_neg hsat]
    cases hbc : bestCandidate m a c with
    | none => rfl
    | some p =>
      simp only [hall a hmem, Bool.false_and, Bool.false_eq_true, if_false]
      unfold agentCore
      rw [List.map_map]
      apply List.map_congr_left
      intro b hb
      by_cases hid : b.unique_id = a.unique_id
      · have hba : b = a :=
          List.inj_on_of_nodup_map hnodup hb hmem hid
        subst hba
        simp [Function.comp, hid, hall b hb]
      · simp [Function.comp, hid]

/-- One activation preserves the (id, threshold, adaptive) projection. -/
lemma stepAgentS_core {m : SchellingModel} {i : ℕ} {c : List (ℕ × ℕ)}
    (hall : ∀ b ∈ m.agents, b.adaptive = false)
    (hnodup : (m.agents.map (fun b => b.unique_id)).Nodup) :
    agentCore (stepAgentS m i c).agents = agentCore m.agents := by
  unfold stepAgentS
  cases hf : m.agents.find? (fun b => b.unique_id == i) with
  | none => rfl
  | some a =>
    show agentCore (moveAgent m a c).agents = agentCore m.agents
    exact moveAgent_core hall hnodup (List.mem_of_find?_eq_some hf)

/-- Core preservation transports the all-non-adaptive invariant. -/
lemma core_adaptive {l l' : List SchellingAgent} (h : agentCore l' = agentCore l)
    (hall : ∀ b ∈ l, b.adaptive = false) : ∀ b ∈ l', b.adaptive = false := by
  intro b hb
  have hmem : (b.unique_id, b.threshold, b.adaptive) ∈ agentCore l := by
    rw [← h]
    exact List.mem_map_of_mem _ hb
  obtain ⟨a, ha, hba⟩ := List.mem_map.mp hmem
  have h3 : a.adaptive = b.adaptive := congrArg (fun x => x.2.2) hba
  rw [← h3]
  exact hall a ha

/-- Core preservation transports the id list (hence its nodup-ness). -/
lemma core_uid {l l' : List SchellingAgent} (h : agentCore l' = agentCore l) :
    l'.map (fun b => b.unique_id) = l.map (fun b => b.unique_id) := by
  have h1 : (agentCore l').map (fun x => x.1) = (agentCore l).map (fun x => x.1) := by
    rw [h]
  simpa [agentCore, List.map_map, Function.comp] using h1

/-- A whole shuffled pass preserves the (id, threshold, adaptive)
projection. -/
lemma fold_core : ∀ (order : List ℕ) (m : SchellingModel)
    (samples : ℕ → List (ℕ × ℕ)),
    (∀ b ∈ m.agents, b.adaptive = false) →
    (m.agents.map (fun b => b.unique_id)).Nodup →
    agentCore ((order.foldl (fun s i => stepAgentS s i (samples i)) m).agents) =
      agentCore m.agents := by
  intro order
  induction order with
  | nil => intro m samples hall hnodup; rfl
  | cons i rest ih =>
    intro m samples hall hnodup
    rw [List.foldl_cons]
    have h1 := stepAgentS_core (m := m) (i := i) (c := samples i) hall hnodup
    have hall1 := core_adaptive h1 hall
    have hnodup1 : ((stepAgentS m i (samples i)).agents.map
        (fun b => b.unique_id)).Nodup := by
      rw [core_uid h1]
      exact hnodup
    rw [ih (stepAgentS m i (samples i)) samples hall1 hnodup1, h1]

/-- A full `SchellingModel.step` preserves the projection. -/
lemma schellingStep_core (m : SchellingModel) (order : List ℕ)
    (samples : ℕ → List (ℕ × ℕ))
    (hall : ∀ b ∈ m.agents, b.adaptive = false)
    (hnodup : (m.agents.map (fun b => b.unique_id)).Nodup) :
    agentCore (schellingStep m order samples).agents = agentCore m.agents := by
  unfold schellingStep
  exact fold_core order { m with happy := 0 } samples hall hnodup

/-- C10: `SchellingAgent.__init__` always sets `adaptive = False`, and over
any run (any script of shuffled activations and empty-cell samples) the
(id, threshold, adaptive) data of every agent is preserved: the adaptive
threshold-decrease branch never executes and thresholds stay at their
construction-time draws. -/
theorem c10_threshold_constant :
    (∀ (s t : ℚ) (uid : ℕ) (p : ℕ × ℕ), (mkSchellingAgent s t uid p).adaptive = false) ∧
    (∀ (m : SchellingModel) (script : List (List ℕ × (ℕ → List (ℕ × ℕ)))),
      (∀ b ∈ m.agents, b.adaptive = false) →
      (m.agents.map (fun b => b.unique_id)).Nodup →
      agentCore (runSchelling m script).agents = agentCore m.agents) := by
  constructor
  · intro s t uid p
    rfl
  · intro m script
    unfold runSchelling
    induction script generalizing m with
    | nil => intro hall hnodup; rfl
    | cons x rest ih =>
      intro hall hnodup
      rw [List.foldl_cons]
      have h1 := schellingStep_core m x.1 x.2 hall hnodup
      exact (ih (schellingStep m x.1 x.2) (core_adaptive h1 hall)
        (by rw [core_uid h1]; exact hnodup)).trans h1

/-- Witness for C10 on a concrete two-agent model and one-step script. -/
theorem c10_threshold_constant_wit :
    agentCore (runSchelling c8nbr [([1, 2], fun _j => [])]).agents =
      agentCore c8nbr.agents :=
  c10_threshold_constant.2 c8nbr [([1, 2], fun _j => [])]
    (by decide) (by decide)

/-- Stream of `self.random.random()` placement draws shared by the two
same-seed constructions of claim C1. -/
def sdC1 : List ℚ := [0, 0, 3/4, 3/4]

/-- Initial state of the process-global `np.random`/`random` attribute
stream for claim C1. -/
def gdC1 : List ℚ := [1, 1/2, 1, 1/2, 9, 1/2, 1/99, 1/2]

/-- First same-seed construction (consumes the front of the global
stream). -/
def runA : SchellingModel × List ℚ := buildSchelling 2 2 (1/2) 1 sdC1 gdC1

/-- Second construction with the SAME seed (same `sdC1`) later in the same
process: it consumes the global stream where the first left off. -/
def runB : SchellingModel × List ℚ := buildSchelling 2 2 (1/2) 1 sdC1 runA.2

/-- Per-agent empty-cell samples used for the single compared tick. -/
def smpC1 : ℕ → List (ℕ × ℕ) :=
  fun i => if i = 1 then [(1, 0), (1, 1)] else [(0, 0), (1, 1)]

/-- C1 (code bug): `SchellingAgent.__init__` draws `income_class` and
`threshold` from the process-global `np.random`/`random` streams, which the
model's `seed` argument does not control (and `InflationModel` accepts no
seed at all).  Two models constructed with identical configuration and
identical seed therefore place agents identically but give them different
attributes, and already the first tick's collected `happy` metric differs:
2 for the first construction, 0 for the second. -/
theorem c1_global_stream_nondeterminism :
    runA.1.agents.map (fun a => a.pos) = runB.1.agents.map (fun a => a.pos) ∧
    (schellingStep runA.1 [1, 2] smpC1).happy = 2 ∧
    (schellingStep runB.1 [1, 2] smpC1).happy = 0 := by
  refine ⟨by with_unfolding_all decide, by with_unfolding_all decide,
    by with_unfolding_all decide⟩

/-- Witness for C7's amended theorem at a concrete state with zero
production. -/
theorem c7_finalize_guard_wit :
    ((finalizeTick mE).map (fun x => (x.price_index, x.current_inflation)) =
      some ((if 0 < mE.total_production then
              mE.price_index_numerator / mE.total_production else mE.price_index),
            (if 0 < mE.total_production then
              mE.price_index_numerator / mE.total_production else mE.price_index) /
              mE.price_index - 1)) ∧
    (mE.total_production = 0 →
      (finalizeTick mE).map (fun x => x.current_inflation) = some 0) :=
  c7_finalize_guard mE (by with_unfolding_all decide)

end ABM
